import Mathlib

/-!
Shallow embedding of the reddit-AI-replier repository core
(src/state.py, src/monitor.py, src/replier.py, src/reddit_bot.py).

Modelling conventions:
* Timestamps (Python floats compared with `<`/`<=` only) are modelled as `Nat`.
* `time.sleep` calls are recorded in a trace (list of the requested durations).
* Exceptions are modelled with explicit sum types; an exception the code does
  not catch surfaces as an `Except.error` / `Option.none` value.
* The PRAW network calls are oracles passed in as arguments (the outcome of
  each `comment.reply` call, the list a listing endpoint returned, ...).
-/

namespace RedditBot

/-- An item fetched from the platform (praw comment): the fields the pipeline
reads (`comment.id`, `comment.created_utc`, `comment.body`). -/
structure Comment where
  id : String
  created_utc : Nat
  body : String
deriving DecidableEq

/-- The persistent bot state (src/state.py `State._data`):
`last_run_time` cursor and the `replied_ids` list. -/
structure BotState where
  last_run_time : Nat
  replied_ids : List String
deriving DecidableEq

/-- Embeds src/state.py `State.is_replied`: membership test in the replied-ids list. -/
def BotState.is_replied (st : BotState) (cid : String) : Bool :=
  st.replied_ids.contains cid

/-- Core of src/state.py `State.mark_replied`, generic in the id type.
Mirrors the Python body: if the id is absent, append it, trim the list to its
last 1000 elements when its length exceeds 1000 (`replied[-1000:]`), and save.
The returned Bool records whether `save` was called (a persistence write). -/
def markRepliedList [DecidableEq α] (replied : List α) (cid : α) : List α × Bool :=
  if cid ∈ replied then (replied, false)
  else
    let appended := replied ++ [cid]
    let trimmed :=
      if appended.length > 1000 then appended.drop (appended.length - 1000)
      else appended
    (trimmed, true)

/-- Embeds src/state.py `State.mark_replied` on the bot state (ids are strings).
The Bool records whether `save` happened. -/
def BotState.mark_replied (st : BotState) (cid : String) : BotState × Bool :=
  let r := markRepliedList st.replied_ids cid
  ({ st with replied_ids := r.1 }, r.2)

/-- Embeds src/state.py `State.update_run_time`: store the current wall-clock time
(`time.time()` evaluated at the moment of the call, passed here as `now`)
into `last_run_time`, then save. -/
def BotState.update_run_time (st : BotState) (now : Nat) : BotState :=
  { st with last_run_time := now }

/-! ## CommentMonitor (src/monitor.py) -/

/-- Python substring test `sub in s`, on explicit character lists. -/
def containsSub (s sub : List Char) : Bool :=
  (List.range (s.length + 1)).any (fun i => sub.isPrefixOf (s.drop i))

/-- Embeds src/monitor.py `CommentMonitor._matches_keywords`: case-insensitive
substring match of any keyword against the text. -/
def matches_keywords (text : String) (keywords : List String) : Bool :=
  keywords.any (fun kw => containsSub (text.data.map Char.toLower) (kw.data.map Char.toLower))

/-- Embeds src/monitor.py `CommentMonitor.get_user_comments`: walk the listing the
platform returned (newest first), yield while `created_utc > since`, break at
the first item at or below `since`. -/
def get_user_comments (listing : List Comment) (since : Nat) : List Comment :=
  listing.takeWhile (fun c => since < c.created_utc)

/-- Embeds src/monitor.py `CommentMonitor.get_subreddit_comments`: skip (continue)
items with `created_utc <= since`; when a non-empty keyword list is supplied
(run_once passes `config.keywords or None`), also skip items whose body
matches no keyword. -/
def get_subreddit_comments (listing : List Comment) (since : Nat)
    (keywords : List String) : List Comment :=
  listing.filter (fun c =>
    since < c.created_utc && (keywords.isEmpty || matches_keywords c.body keywords))

/-! ## Rate-limit wait-hint parser (src/replier.py `Replier._parse_wait_time`)

The Python code runs `re.search(r"(\d+)\s*(minute|second)", message.lower())`.
A match at a position requires: a non-empty maximal digit run, then a maximal
whitespace run, then the literal `minute` or `second`.  (Backtracking the
greedy `\d+`/`\s*` can never help: the literals start neither with a digit
nor with a whitespace character, so the maximal-run reading is exact.)
`re.search` returns the match with the leftmost starting position. -/

/-- The `\s` whitespace class (ASCII part, which is all the messages contain). -/
def isSpaceChar (c : Char) : Bool :=
  c = ' ' || c = '\t' || c = '\n' || c = '\x0d' || c = '\x0b' || c = '\x0c'

/-- Numeric value of a digit run (the regex group `(\d+)` converted by `int`). -/
def digitsToNat (ds : List Char) : Nat :=
  ds.foldl (fun acc c => acc * 10 + (c.toNat - '0'.toNat)) 0

/-- Try to match `(\d+)\s*(minute|second)` anchored at the head of `cs`:
returns the numeric value and whether the unit alternative was `minute`. -/
def matchUnitAt (cs : List Char) : Option (Nat × Bool) :=
  let digits := cs.takeWhile (fun c => c.isDigit)
  if digits.isEmpty then none
  else
    let rest := (cs.drop digits.length).dropWhile isSpaceChar
    if ("minute".data).isPrefixOf rest then some (digitsToNat digits, true)
    else if ("second".data).isPrefixOf rest then some (digitsToNat digits, false)
    else none

/-- Model of `re.search`: scan positions left to right, return the first match. -/
def searchWait : List Char → Option (Nat × Bool)
  | [] => none
  | c :: rest =>
    match matchUnitAt (c :: rest) with
    | some r => some r
    | none => searchWait rest

/-- Embeds src/replier.py `Replier._parse_wait_time`: lowercase the message, search
for the pattern, return minutes*60 or seconds, defaulting to 60. -/
def parse_wait_time (message : String) : Nat :=
  match searchWait (message.data.map Char.toLower) with
  | some (v, isMinute) => if isMinute then v * 60 else v
  | none => 60

/-! ## Replier (src/replier.py) -/

/-- One entry of a `praw.exceptions.RedditAPIException`'s `items` list:
the fields the handler reads (`error_type`, `message`). -/
structure ExcItem where
  error_type : String
  message : String
deriving DecidableEq

/-- Outcome of one `comment.reply(...)` call made inside
`Replier._handle_rate_limit` (supplied by a platform oracle, indexed by how
many such calls were already made):
`ok` — the reply went through;
`apiExc` — it raised `RedditAPIException` again (caught, `continue`);
`raiseOther` — it raised something else (not caught there, propagates). -/
inductive RetryOutcome
  | ok
  | apiExc
  | raiseOther
deriving DecidableEq

/-- Outcome of the first `comment.reply(...)` call in `Replier.post_reply`,
matching the four except-clauses of the Python code. -/
inductive FirstOutcome
  | ok
  | forbidden
  | apiExc (items : List ExcItem)
  | otherExc
deriving DecidableEq

/-- How the inner `for item in exception.items` loop of
`Replier._handle_rate_limit` exits. -/
inductive InnerExit
  | done (b : Bool)
  | raised
  | fellThrough
deriving DecidableEq

/-- The inner loop of `Replier._handle_rate_limit`: for each item of the
original exception whose `error_type` is "RATELIMIT", parse its message,
sleep the parsed wait, and retry `comment.reply`; a fresh
`RedditAPIException` is caught and the loop continues, success returns True,
any other exception propagates.  `k` counts the retry calls made so far,
`sleeps` accumulates the sleep durations. -/
def rlInner (oracle : Nat → RetryOutcome) :
    List ExcItem → Nat → List Nat → InnerExit × Nat × List Nat
  | [], k, sleeps => (.fellThrough, k, sleeps)
  | item :: rest, k, sleeps =>
    if item.error_type = "RATELIMIT" then
      let w := parse_wait_time item.message
      match oracle k with
      | .ok => (.done true, k + 1, sleeps ++ [w])
      | .apiExc => rlInner oracle rest (k + 1) (sleeps ++ [w])
      | .raiseOther => (.raised, k + 1, sleeps ++ [w])
    else rlInner oracle rest k sleeps

/-- The outer `for attempt in range(max_retries)` loop of
`Replier._handle_rate_limit`; falling out of both loops returns False. -/
def rlOuter (oracle : Nat → RetryOutcome) :
    Nat → List ExcItem → Nat → List Nat → Option Bool × Nat × List Nat
  | 0, _, k, sleeps => (some false, k, sleeps)
  | n + 1, items, k, sleeps =>
    match rlInner oracle items k sleeps with
    | (.done b, k', s') => (some b, k', s')
    | (.raised, k', s') => (none, k', s')
    | (.fellThrough, k', s') => rlOuter oracle n items k' s'

/-- Embeds src/replier.py `Replier._handle_rate_limit` with its default
`max_retries = 3`.  Result: (returned value — `none` means an exception
propagated, number of `comment.reply` retry calls made, sleeps performed). -/
def handle_rate_limit (items : List ExcItem) (oracle : Nat → RetryOutcome) :
    Option Bool × Nat × List Nat :=
  rlOuter oracle 3 items 0 []

/-- Trace of one `Replier.post_reply` call. -/
structure PostResult where
  result : Option Bool
  attempts : Nat
  sleeps : List Nat
deriving DecidableEq

/-- Embeds src/replier.py `Replier._next_instance`: return the session at the
current cursor and advance the cursor modulo the pool size. -/
def next_instance (poolLen cur : Nat) : Nat × Nat :=
  (cur, (cur + 1) % poolLen)

/-- Embeds src/replier.py `Replier.post_reply`: select the next session (always,
before the attempt), try the reply, and classify the outcome; success sleeps
`reply_delay`; Forbidden and unexpected exceptions return False; a
`RedditAPIException` goes to `_handle_rate_limit`.  Returns the trace
(`attempts` counts every `comment.reply` call including the first) and the
new rotation cursor. -/
def post_reply (poolLen cur : Nat) (first : FirstOutcome)
    (oracle : Nat → RetryOutcome) (reply_delay : Nat) : PostResult × Nat :=
  let newCur := (next_instance poolLen cur).2
  match first with
  | .ok => ({ result := some true, attempts := 1, sleeps := [reply_delay] }, newCur)
  | .forbidden => ({ result := some false, attempts := 1, sleeps := [] }, newCur)
  | .otherExc => ({ result := some false, attempts := 1, sleeps := [] }, newCur)
  | .apiExc items =>
    let r := handle_rate_limit items oracle
    ({ result := r.1, attempts := 1 + r.2.1, sleeps := r.2.2 }, newCur)

/-- The sequence of sessions returned by `n` consecutive
`Replier._next_instance` calls starting from cursor `cur`. -/
def selections (poolLen : Nat) : Nat → Nat → List Nat
  | _, 0 => []
  | cur, n + 1 =>
    (next_instance poolLen cur).1 :: selections poolLen (next_instance poolLen cur).2 n

/-! ## Cycle orchestrator (src/reddit_bot.py) -/

/-- Outcome of processing one comment inside `run_once`'s loop (generation
plus posting): an exception during generation is caught and logged
(`genError`), otherwise `Replier.post_reply` returned True (`posted`) or
False (`postFailed`). -/
inductive StepOutcome
  | genError
  | posted
  | postFailed
deriving DecidableEq

/-- The `for comment in comments` loop of `run_once`: break once
`replies_posted >= max_replies`, skip already-replied comments, on a
successful post mark the id replied and count it; failures and exceptions
continue with the next comment. -/
def processComments (outcome : Comment → StepOutcome) (max_replies : Nat) :
    List Comment → BotState → Nat → BotState × Nat
  | [], st, n => (st, n)
  | c :: rest, st, n =>
    if max_replies ≤ n then (st, n)
    else if st.is_replied c.id then processComments outcome max_replies rest st n
    else
      match outcome c with
      | .posted =>
        processComments outcome max_replies rest (st.mark_replied c.id).1 (n + 1)
      | _ => processComments outcome max_replies rest st n

/-- Exception classes reaching `main`'s run loop. -/
inductive ExcClass
  | keyboardInterrupt
  | fetchError
  | otherError
deriving DecidableEq

/-- Embeds src/reddit_bot.py `run_once`: the fetch (`monitor.get_*_comments`,
materialised by `list(...)`) is NOT wrapped in any try/except, so a platform
or network error there propagates to the caller at once — nothing is posted,
the state is untouched, the fetch is not re-attempted.  Otherwise process the
fetched comments, then call `state.update_run_time()`, which stores
`time.time()` evaluated at that moment — `endTime` here; the code takes no
timestamp when the cycle starts.  Returns the new state and the reply count. -/
def run_once (fetched : Except ExcClass (List Comment))
    (outcome : Comment → StepOutcome) (max_replies : Nat) (endTime : Nat)
    (st : BotState) : Except ExcClass (BotState × Nat) :=
  match fetched with
  | .error e => .error e
  | .ok comments =>
    let r := processComments outcome max_replies comments st 0
    .ok (r.1.update_run_time endTime, r.2)

/-- How the process ends, as seen from `main`'s `try: while True: ...
except KeyboardInterrupt:` block. -/
inductive ProcEnd
  | finished
  | cleanStop
  | crash (e : ExcClass)
deriving DecidableEq

/-- Embeds src/reddit_bot.py `main`'s run loop over the cycle outcomes it observes:
a cycle that raises `KeyboardInterrupt` is caught and stops the bot cleanly;
a cycle that raises anything else (for example a fetch error) is NOT caught —
the exception terminates the process. -/
def mainLoop : List (Except ExcClass Nat) → ProcEnd
  | [] => .finished
  | .ok _ :: rest => mainLoop rest
  | .error .keyboardInterrupt :: _ => .cleanStop
  | .error e :: _ => .crash e

/-- Closed form for "how many naturals below `M` have residue `i` mod `K`"
(used to settle the round-robin fairness claim). -/
def resCountF (K i M : Nat) : Nat :=
  M / K + (if i < M % K then 1 else 0)

end RedditBot

/-! # Theorems -/

namespace RedditBot

/-! ## CommentMonitor: cursor exclusion (C4) -/

theorem get_user_comments_stops (since : Nat) :
    ∀ (a rest : List Comment) (bad : Comment), (∀ c ∈ a, since < c.created_utc) →
      bad.created_utc ≤ since → get_user_comments (a ++ bad :: rest) since = a := by
  intro a rest bad ha hbad
  induction a with
  | nil =>
    simp only [List.nil_append, get_user_comments, List.takeWhile_cons]
    rw [if_neg]
    simpa using hbad
  | cons c a ih =>
    have hc : since < c.created_utc := ha c (by simp)
    have ha' : ∀ x ∈ a, since < x.created_utc := fun x hx => ha x (by simp [hx])
    simp only [List.cons_append, get_user_comments, List.takeWhile_cons] at *
    rw [if_pos (by simpa using hc)]
    simpa using ih ha'

/-- Claim C4 (confirmed): for every target mode and every cursor value, the
comment source never yields an item whose creation time is at or below the
cursor: every yielded item has `created_utc` strictly greater than `since`;
moreover user mode stops at the first item at or below the cursor (the items
after it, `rest`, are never inspected), while forum mode merely skips such an
item and keeps filtering the remainder. -/
theorem C4_cursor_exclusion (listing a rest : List Comment) (bad : Comment)
    (since : Nat) (keywords : List String) :
    (∀ c ∈ get_user_comments listing since, since < c.created_utc)
    ∧ (∀ c ∈ get_subreddit_comments listing since keywords, since < c.created_utc)
    ∧ ((∀ c ∈ a, since < c.created_utc) → bad.created_utc ≤ since →
        get_user_comments (a ++ bad :: rest) since = a)
    ∧ (bad.created_utc ≤ since →
        get_subreddit_comments (a ++ bad :: rest) since keywords =
          get_subreddit_comments a since keywords
            ++ get_subreddit_comments rest since keywords) := by
  refine ⟨?_, ?_, get_user_comments_stops since a rest bad, ?_⟩
  · intro c hc
    have := List.mem_takeWhile_imp hc
    simpa using this
  · intro c hc
    have := (List.mem_filter.mp hc).2
    simp only [Bool.and_eq_true, decide_eq_true_eq] at this
    exact this.1
  · intro hbad
    simp only [get_subreddit_comments, List.filter_append, List.filter_cons]
    rw [if_neg]
    simp only [Bool.and_eq_true, decide_eq_true_eq, not_and]
    intro h
    omega

/-- Witness for C4 at the spec's scenario: cursor 1000, listing with creation
times 1002, 1001 (newer than the cursor) followed by 999; both modes yield
exactly the two new items and the boundary-item variants are exercised. -/
theorem C4_witness :
    (∀ c ∈ get_user_comments
        [⟨"a", 1002, "x"⟩, ⟨"b", 1001, "x"⟩, ⟨"c", 999, "x"⟩] 1000, 1000 < c.created_utc)
    ∧ get_user_comments
        ([⟨"a", 1002, "x"⟩, ⟨"b", 1001, "x"⟩] ++ ⟨"c", 999, "x"⟩ :: [⟨"d", 1003, "x"⟩]) 1000
      = [⟨"a", 1002, "x"⟩, ⟨"b", 1001, "x"⟩] := by
  have h := C4_cursor_exclusion
    [⟨"a", 1002, "x"⟩, ⟨"b", 1001, "x"⟩, ⟨"c", 999, "x"⟩]
    [⟨"a", 1002, "x"⟩, ⟨"b", 1001, "x"⟩] [⟨"d", 1003, "x"⟩] ⟨"c", 999, "x"⟩ 1000 []
  exact ⟨h.1, h.2.2.1 (by decide) (by decide)⟩

/-! ## StateStore: idempotence and bounded eviction (C5, C6) -/

/-- Claim C5 (confirmed): marking an identifier that is already in the
replied set is a no-op: the state is unchanged and no persistence write
(`save`) is performed — `mark_replied` is idempotent. -/
theorem C5_mark_replied_idempotent (st : BotState) (cid : String)
    (h : cid ∈ st.replied_ids) : st.mark_replied cid = (st, false) := by
  simp [BotState.mark_replied, markRepliedList, h]

/-- Witness for C5: re-marking "a" in a state that already holds it changes
nothing and reports no write. -/
theorem C5_witness :
    BotState.mark_replied { last_run_time := 7, replied_ids := ["a", "b"] } "a"
      = ({ last_run_time := 7, replied_ids := ["a", "b"] }, false) :=
  C5_mark_replied_idempotent _ "a" (by decide)

/-- Claim C6 (confirmed): the handled-id list stays within 1000 entries
across `mark_replied` operations, and inserting a 1001st distinct identifier
drops exactly the oldest one: the stored list becomes the most recently
inserted 1000 entries in insertion order (`l.tail ++ [x]`), and the previous
oldest entry (the head) is gone.  (`markRepliedList` is the id-list core of
`BotState.mark_replied`, generic in the identifier type.) -/
theorem C6_bounded_eviction {α : Type} [DecidableEq α] (l : List α) (x : α) :
    (l.length ≤ 1000 → (markRepliedList l x).1.length ≤ 1000)
    ∧ (l.length = 1000 → x ∉ l →
        (markRepliedList l x).1 = l.tail ++ [x]
        ∧ ∀ h, l.head? = some h → l.Nodup → h ∉ (markRepliedList l x).1) := by
  constructor
  · intro hlen
    by_cases hx : x ∈ l
    · simp [markRepliedList, hx, hlen]
    · rw [markRepliedList, if_neg hx]
      dsimp only
      split
      · simp only [List.length_drop]
        omega
      · rename_i hle
        simp only [gt_iff_lt, not_lt, List.length_append, List.length_singleton] at hle
        simpa using hle
  · intro hlen hx
    have hlen1 : (l ++ [x]).length = 1001 := by simp [hlen]
    have htrim : (markRepliedList l x).1 = l.tail ++ [x] := by
      rw [markRepliedList, if_neg hx]
      dsimp only
      rw [if_pos (by rw [hlen1]; norm_num), hlen1]
      norm_num
      cases l with
      | nil => simp at hlen
      | cons y t => simp
    refine ⟨htrim, ?_⟩
    intro h hhead hnodup
    rw [htrim]
    cases l with
    | nil => simp at hhead
    | cons y t =>
      simp only [List.head?_cons, Option.some.injEq] at hhead
      subst hhead
      have hnot : y ∉ t := (List.nodup_cons.mp hnodup).1
      simp only [List.tail_cons, List.mem_append, List.mem_singleton]
      rintro (hmem | rfl)
      · exact hnot hmem
      · exact hx (by simp)

/-- Witness for C6: a full list of the 1000 identifiers `0..999`; inserting
the distinct identifier 1000 keeps the bound, retains `1..999, 1000` in
order, and evicts the oldest identifier 0. -/
theorem C6_witness :
    (markRepliedList (List.range 1000) 1000).1.length ≤ 1000
    ∧ (markRepliedList (List.range 1000) 1000).1 = (List.range 1000).tail ++ [1000]
    ∧ 0 ∉ (markRepliedList (List.range 1000) 1000).1 := by
  have h := C6_bounded_eviction (List.range 1000) 1000
  have h2 := h.2 (by simp) (by simp)
  refine ⟨h.1 (by simp), h2.1, h2.2 0 ?_ (List.nodup_range 1000)⟩
  rw [show (1000 : Nat) = 999 + 1 from rfl, List.range_succ_eq_map]
  rfl

/-! ## Replier: rate-limit handling (C2, C9, C10) -/

theorem rlInner_no_rl (oracle : Nat → RetryOutcome) :
    ∀ (items : List ExcItem), (∀ it ∈ items, it.error_type ≠ "RATELIMIT") →
      ∀ k s, rlInner oracle items k s = (.fellThrough, k, s) := by
  intro items h
  induction items with
  | nil => intro k s; rfl
  | cons it rest ih =>
    intro k s
    rw [rlInner, if_neg (h it (by simp))]
    exact ih (fun x hx => h x (by simp [hx])) k s

theorem rlOuter_no_rl (oracle : Nat → RetryOutcome) (items : List ExcItem)
    (h : ∀ it ∈ items, it.error_type ≠ "RATELIMIT") :
    ∀ n k s, rlOuter oracle n items k s = (some false, k, s) := by
  intro n
  induction n with
  | zero => intro k s; rfl
  | succ n ih =>
    intro k s
    rw [rlOuter, rlInner_no_rl oracle items h k s]
    exact ih k s

theorem rlInner_append_no_rl (oracle : Nat → RetryOutcome) :
    ∀ (pre rest : List ExcItem), (∀ it ∈ pre, it.error_type ≠ "RATELIMIT") →
      ∀ k s, rlInner oracle (pre ++ rest) k s = rlInner oracle rest k s := by
  intro pre rest h
  induction pre with
  | nil => intro k s; rfl
  | cons it pre ih =>
    intro k s
    rw [List.cons_append, rlInner, if_neg (h it (by simp))]
    exact ih (fun x hx => h x (by simp [hx])) k s

/-- Claim C10 (confirmed): a platform API exception whose `items` contain no
"RATELIMIT" entry makes `post_reply` return False with no sleep and no
further `comment.reply` attempt beyond the first (the handler's loops find
nothing to retry). -/
theorem C10_non_ratelimit_exception (items : List ExcItem)
    (h : ∀ it ∈ items, it.error_type ≠ "RATELIMIT")
    (poolLen cur reply_delay : Nat) (oracle : Nat → RetryOutcome) :
    post_reply poolLen cur (.apiExc items) oracle reply_delay
      = ({ result := some false, attempts := 1, sleeps := [] }, (cur + 1) % poolLen) := by
  rw [post_reply]
  rw [show handle_rate_limit items oracle = (some false, 0, []) from
    rlOuter_no_rl oracle items h 3 0 []]
  rfl

/-- Witness for C10: an exception carrying only a `BAD_CAPTCHA` item. -/
theorem C10_witness :
    post_reply 2 1 (.apiExc [⟨"BAD_CAPTCHA", "captcha required"⟩]) (fun _ => .ok) 10
      = ({ result := some false, attempts := 1, sleeps := [] }, 0) :=
  C10_non_ratelimit_exception [⟨"BAD_CAPTCHA", "captcha required"⟩] (by decide) 2 1 10 _

/-- Claim C9 is WRONG on the code: here is a successful post (it succeeds on
the first retry after one rate-limit wait of 120 s) whose sleep trace is just
`[120]` — the configured inter-reply delay of 10 s is never slept before
returning success, contradicting "this delay applies on every successful
post, including a post that succeeds after rate-limit retries".  (Success
inside `_handle_rate_limit` returns True directly, bypassing the
`time.sleep(self.reply_delay)` line of `post_reply`.) -/
theorem C9_counterexample :
    (post_reply 1 0 (.apiExc [⟨"RATELIMIT", "Take a break for 2 minutes before trying again."⟩])
        (fun _ => .ok) 10).1
      = { result := some true, attempts := 2, sleeps := [120] }
    ∧ (10 : Nat) ∉ [(120 : Nat)] := by
  refine ⟨rfl, by decide⟩

/-- Claim C9 (corrected): the inter-reply delay is slept exactly when the
post succeeds on the first attempt; when the first attempt raises an API
exception, the sleeps performed are exactly the rate-limit waits of
`_handle_rate_limit` — a post that succeeds there returns success without
the inter-reply delay. -/
theorem C9_delay_only_on_first_attempt_success (poolLen cur reply_delay : Nat)
    (oracle : Nat → RetryOutcome) (items : List ExcItem) :
    (post_reply poolLen cur .ok oracle reply_delay).1
      = { result := some true, attempts := 1, sleeps := [reply_delay] }
    ∧ (post_reply poolLen cur (.apiExc items) oracle reply_delay).1.sleeps
      = (handle_rate_limit items oracle).2.2 :=
  ⟨rfl, rfl⟩

/-- Claim C2 is WRONG on the code about the attempt ceiling: with a single
rate-limit item and every retry failing, the poster makes the initial
attempt plus 3 retries = 4 `comment.reply` calls in total (here
`attempts = 4`), not "at most 3 attempts in total including the first". -/
theorem C2_counterexample :
    (post_reply 1 0 (.apiExc [⟨"RATELIMIT", "Take a break for 2 minutes before trying again."⟩])
        (fun _ => .apiExc) 10).1
      = { result := some false, attempts := 4, sleeps := [120, 120, 120] }
    ∧ ¬ (4 ≤ 3) := by
  refine ⟨rfl, by decide⟩

/-- Claim C2 (corrected): for an API exception carrying exactly one
rate-limit item with message `m` (any non-rate-limit items around it), and a
platform whose retries either succeed or raise a fresh API exception, the
handler sleeps the wait parsed from the original message `m` before every
retry, makes at most 3 retries (so at most 4 attempts in total including the
first), and returns rather than raising; exhausting the ceiling returns
failure after three waits of `parse_wait_time m`, and the spec's scenario —
rate-limited first two attempts, success on the third — returns success
after 2 retries with two such waits. -/
theorem C2_rate_limit_retry (pre post : List ExcItem) (m : String)
    (oracle : Nat → RetryOutcome)
    (hpre : ∀ it ∈ pre, it.error_type ≠ "RATELIMIT")
    (hpost : ∀ it ∈ post, it.error_type ≠ "RATELIMIT")
    (hor : ∀ k, oracle k = .ok ∨ oracle k = .apiExc) :
    let items := pre ++ ⟨"RATELIMIT", m⟩ :: post
    let w := parse_wait_time m
    let r := handle_rate_limit items oracle
    r.2.1 ≤ 3
    ∧ r.1 ≠ none
    ∧ ((∀ k, k < 3 → oracle k = .apiExc) → r = (some false, 3, [w, w, w]))
    ∧ (oracle 0 = .apiExc → oracle 1 = .ok → r = (some true, 2, [w, w])) := by
  intro items w r
  have hstep : ∀ k s, rlInner oracle items k s =
      if oracle k = .ok then (InnerExit.done true, k + 1, s ++ [w])
      else (InnerExit.fellThrough, k + 1, s ++ [w]) := by
    intro k s
    show rlInner oracle (pre ++ _ :: post) k s = _
    rw [rlInner_append_no_rl oracle pre _ hpre, rlInner, if_pos rfl]
    rcases hor k with h | h <;> rw [h]
    · rfl
    · simp only [if_neg (by simp : ¬ RetryOutcome.apiExc = RetryOutcome.ok)]
      exact rlInner_no_rl oracle post hpost (k + 1) (s ++ [w])
  have hr : r = rlOuter oracle 3 items 0 [] := rfl
  rcases hor 0 with h0 | h0
  · have hval : r = (some true, 1, [w]) := by
      simp [hr, rlOuter, hstep, h0]
    rw [hval]
    refine ⟨by norm_num, by simp, fun hall => ?_, fun ha0 _ => ?_⟩
    · rw [hall 0 (by norm_num)] at h0; simp at h0
    · rw [ha0] at h0; simp at h0
  · rcases hor 1 with h1 | h1
    · have hval : r = (some true, 2, [w, w]) := by
        simp [hr, rlOuter, hstep, h0, h1]
      rw [hval]
      refine ⟨by norm_num, by simp, fun hall => ?_, fun _ _ => rfl⟩
      rw [hall 1 (by norm_num)] at h1; simp at h1
    · rcases hor 2 with h2 | h2
      · have hval : r = (some true, 3, [w, w, w]) := by
          simp [hr, rlOuter, hstep, h0, h1, h2]
        rw [hval]
        refine ⟨by norm_num, by simp, fun hall => ?_, fun _ hb => ?_⟩
        · rw [hall 2 (by norm_num)] at h2; simp at h2
        · rw [hb] at h1; simp at h1
      · have hval : r = (some false, 3, [w, w, w]) := by
          simp [hr, rlOuter, hstep, h0, h1, h2]
        rw [hval]
        refine ⟨by norm_num, by simp, fun _ => rfl, fun _ hb => ?_⟩
        rw [hb] at h1; simp at h1

/-- Witness for C2 (corrected): a mixed exception (`BAD_CAPTCHA` then the
rate-limit item "2 minutes") with every retry failing: the handler returns
False (it does not raise) after exactly 3 retries and three 120-second
waits. -/
theorem C2_witness :
    handle_rate_limit [⟨"BAD_CAPTCHA", "x"⟩, ⟨"RATELIMIT", "2 minutes"⟩]
        (fun _ => .apiExc)
      = (some false, 3, [120, 120, 120]) := by
  have h := C2_rate_limit_retry [⟨"BAD_CAPTCHA", "x"⟩] [] "2 minutes"
    (fun _ => .apiExc) (by decide) (by simp) (fun _ => Or.inr rfl)
  exact h.2.2.1 (fun _ _ => rfl)

/-! ## Wait-hint parser (C8) -/

theorem matchUnitAt_nil : matchUnitAt [] = none := rfl

theorem searchWait_of_leftmost :
    ∀ (cs : List Char) (i v : Nat) (b : Bool),
      matchUnitAt (cs.drop i) = some (v, b) →
      (∀ j, j < i → matchUnitAt (cs.drop j) = none) →
      searchWait cs = some (v, b) := by
  intro cs
  induction cs with
  | nil =>
    intro i v b hmatch _
    rw [List.drop_nil] at hmatch
    rw [matchUnitAt_nil] at hmatch
    exact absurd hmatch (by simp)
  | cons c rest ih =>
    intro i v b hmatch hnone
    cases i with
    | zero =>
      rw [List.drop_zero] at hmatch
      rw [searchWait, hmatch]
    | succ i =>
      have h0 : matchUnitAt (c :: rest) = none := by
        have := hnone 0 (Nat.succ_pos i)
        rwa [List.drop_zero] at this
      rw [searchWait, h0]
      exact ih i v b hmatch (fun j hj => hnone (j + 1) (Nat.succ_lt_succ hj))

theorem searchWait_none_of_all :
    ∀ cs : List Char, (∀ i, matchUnitAt (cs.drop i) = none) → searchWait cs = none := by
  intro cs
  induction cs with
  | nil => intro _; rfl
  | cons c rest ih =>
    intro h
    have h0 : matchUnitAt (c :: rest) = none := by
      have := h 0
      rwa [List.drop_zero] at this
    rw [searchWait, h0]
    exact ih (fun i => h (i + 1))

/-- Claim C8 is WRONG on the code for messages containing both units: the
message "wait 1 second then 2 minutes" does contain a number (2) followed by
"minute", so the claim requires 2*60 = 120 seconds, but `_parse_wait_time`
takes the leftmost match ("1 second") and returns 1. -/
theorem C8_counterexample :
    (∃ i, matchUnitAt (("wait 1 second then 2 minutes".data.map Char.toLower).drop i)
        = some (2, true))
    ∧ parse_wait_time "wait 1 second then 2 minutes" = 1
    ∧ (1 : Nat) ≠ 2 * 60 :=
  ⟨⟨19, by decide⟩, rfl, by decide⟩

/-- Claim C8 (corrected): the parser is governed by the LEFTMOST occurrence
of the pattern "digits, optional whitespace, then `minute` or `second`
(case-insensitively, so `minutes`/`seconds` also match)": it returns N*60
when that leftmost occurrence's unit is minute, N when it is second, and 60
when the lowercased message contains no occurrence at all. -/
theorem C8_wait_hint_parsing (message : String) :
    ((∀ i, matchUnitAt ((message.data.map Char.toLower).drop i) = none) →
      parse_wait_time message = 60)
    ∧ (∀ i v isMinute,
        matchUnitAt ((message.data.map Char.toLower).drop i) = some (v, isMinute) →
        (∀ j, j < i → matchUnitAt ((message.data.map Char.toLower).drop j) = none) →
        parse_wait_time message = if isMinute then v * 60 else v) := by
  constructor
  · intro hall
    rw [parse_wait_time, searchWait_none_of_all _ hall]
  · intro i v isMinute hmatch hnone
    rw [parse_wait_time, searchWait_of_leftmost _ i v isMinute hmatch hnone]

/-- Witness for C8: in "please wait 9 minutes" the leftmost (and only)
occurrence is "9 minutes" at position 12, so the parser returns 9*60. -/
theorem C8_witness : parse_wait_time "please wait 9 minutes" = 9 * 60 := by
  have h := (C8_wait_hint_parsing "please wait 9 minutes").2 12 9 true
    (by decide) (by decide)
  simpa using h

/-! ## Cycle orchestrator: cursor discipline (C1) and fetch errors (C3) -/

theorem processComments_last_run_time (outcome : Comment → StepOutcome)
    (max_replies : Nat) :
    ∀ (comments : List Comment) (st : BotState) (n : Nat),
      (processComments outcome max_replies comments st n).1.last_run_time
        = st.last_run_time := by
  intro comments
  induction comments with
  | nil => intro st n; rfl
  | cons c rest ih =>
    intro st n
    rw [processComments]
    split
    · rfl
    · split
      · exact ih st n
      · split
        · exact ih _ _
        · exact ih st n

/-- Claim C1 is WRONG on the code about which time is stored: `run_once`
takes no timestamp when it starts; `update_run_time` stores `time.time()`
read when the cycle ENDS.  Concretely, a cycle that starts at wall-clock 100
and reaches its final `update_run_time` call at wall-clock 150 stores 150 —
not the cycle's start time 100 — so items created during processing are
skipped, not "visible next cycle". -/
theorem C1_counterexample :
    run_once (.ok []) (fun _ => .genError) 10 150 { last_run_time := 0, replied_ids := [] }
      = .ok ({ last_run_time := 150, replied_ids := [] }, 0)
    ∧ (150 : Nat) ≠ 100 :=
  ⟨rfl, by decide⟩

/-- Claim C1 (corrected): in every cycle the stored cursor is advanced
exactly once, at the end of the cycle — the comment-processing loop never
touches `last_run_time`, and the final `update_run_time` sets it to the
wall-clock time at that final call (`endTime`), not to the cycle's start
time; across two consecutive cycles the cursor is monotonically
non-decreasing provided the wall clock is (`endTime ≤ endTime'`). -/
theorem C1_cursor_discipline (comments comments' : List Comment)
    (outcome outcome' : Comment → StepOutcome) (mx mx' endTime endTime' : Nat)
    (st : BotState) (hclock : endTime ≤ endTime') :
    ((run_once (.ok comments) outcome mx endTime st).map
        (fun res => res.1.last_run_time) = .ok endTime)
    ∧ (∀ n, (processComments outcome mx comments st n).1.last_run_time
        = st.last_run_time)
    ∧ (∀ st1 n1 st2 n2,
        run_once (.ok comments) outcome mx endTime st = .ok (st1, n1) →
        run_once (.ok comments') outcome' mx' endTime' st1 = .ok (st2, n2) →
        st1.last_run_time ≤ st2.last_run_time) := by
  refine ⟨by simp [run_once, Except.map, BotState.update_run_time],
    fun n => processComments_last_run_time outcome mx comments st n,
    fun st1 n1 st2 n2 h1 h2 => ?_⟩
  have e1 : st1.last_run_time = endTime := by
    simp only [run_once, Except.ok.injEq, Prod.mk.injEq] at h1
    rw [← h1.1]
    rfl
  have e2 : st2.last_run_time = endTime' := by
    simp only [run_once, Except.ok.injEq, Prod.mk.injEq] at h2
    rw [← h2.1]
    rfl
  rw [e1, e2]
  exact hclock

/-- Witness for C1 (corrected), on a concrete cycle pair: an already-replied
comment and a fresh posted one, end times 150 then 160. -/
theorem C1_witness :
    ((run_once (.ok [⟨"a", 120, "x"⟩]) (fun _ => .posted) 10 150
        { last_run_time := 100, replied_ids := [] }).map
      (fun res => res.1.last_run_time) = .ok 150)
    ∧ (processComments (fun _ => .posted) 10 [⟨"a", 120, "x"⟩]
        { last_run_time := 100, replied_ids := [] } 0).1.last_run_time = 100
    ∧ ({ last_run_time := 150, replied_ids := ["a"] } : BotState).last_run_time ≤
        ({ last_run_time := 160, replied_ids := ["a"] } : BotState).last_run_time := by
  have h := C1_cursor_discipline [⟨"a", 120, "x"⟩] [] (fun _ => .posted)
    (fun _ => .genError) 10 10 150 160 { last_run_time := 100, replied_ids := [] }
    (by norm_num)
  exact ⟨h.1, h.2.1 0, h.2.2 ⟨150, ["a"]⟩ 1 ⟨160, ["a"]⟩ 0 rfl rfl⟩

theorem mainLoop_crash_after_ok (rest : List (Except ExcClass Nat)) :
    ∀ pre : List (Except ExcClass Nat), (∀ x ∈ pre, ∃ n, x = .ok n) →
      mainLoop (pre ++ .error .fetchError :: rest) = .crash .fetchError := by
  intro pre hpre
  induction pre with
  | nil => rfl
  | cons x pre ih =>
    obtain ⟨n, rfl⟩ := hpre x (by simp)
    rw [List.cons_append]
    rw [show mainLoop (Except.ok n :: (pre ++ .error .fetchError :: rest))
        = mainLoop (pre ++ .error .fetchError :: rest) from rfl]
    exact ih (fun y hy => hpre y (by simp [hy]))

/-- Claim C3 is WRONG on the code about process survival: `main` wraps the
cycle loop in `try ... except KeyboardInterrupt` only, so a cycle whose
fetch raises a platform/network error is NOT caught — the process
terminates (crashes) on a fetch error instead of moving on to the next
cycle. -/
theorem C3_counterexample :
    mainLoop [Except.error ExcClass.fetchError] = ProcEnd.crash ExcClass.fetchError
    ∧ ProcEnd.crash ExcClass.fetchError ≠ ProcEnd.cleanStop
    ∧ ProcEnd.crash ExcClass.fetchError ≠ ProcEnd.finished :=
  ⟨rfl, by decide, by decide⟩

/-- Claim C3 (corrected): a fetch error aborts the current cycle at once —
`run_once` returns the error untouched, so nothing is posted, the state
(cursor included) is untouched and the fetch is not re-attempted within the
cycle; but the error then propagates through `main`'s loop, which catches
only `KeyboardInterrupt`: after any number of completed cycles, a cycle
whose fetch fails terminates the process. -/
theorem C3_fetch_error_fatal (e : ExcClass) (outcome : Comment → StepOutcome)
    (mx endTime : Nat) (st : BotState)
    (pre rest : List (Except ExcClass Nat))
    (hpre : ∀ x ∈ pre, ∃ n, x = .ok n) :
    run_once (.error e) outcome mx endTime st = .error e
    ∧ mainLoop (pre ++ .error .fetchError :: rest) = .crash .fetchError :=
  ⟨rfl, mainLoop_crash_after_ok rest pre hpre⟩

/-- Witness for C3 (corrected): one successful cycle (3 replies), then a
cycle whose fetch fails: `run_once` surfaces the error and the process
crashes. -/
theorem C3_witness :
    run_once (.error .fetchError) (fun _ => .posted) 10 150
        { last_run_time := 0, replied_ids := [] }
      = .error .fetchError
    ∧ mainLoop [.ok 3, .error .fetchError] = .crash .fetchError := by
  have h := C3_fetch_error_fatal .fetchError (fun _ => .posted) 10 150
    { last_run_time := 0, replied_ids := [] } [.ok 3] []
    (by intro x hx; simp at hx; exact ⟨3, hx⟩)
  exact h

/-! ## Replier: round-robin rotation (C7) -/

theorem resCountF_succ (K i : Nat) (hK : 0 < K) (hi : i < K) (M : Nat) :
    resCountF K i (M + 1) = resCountF K i M + (if M % K = i then 1 else 0) := by
  have hmod := Nat.div_add_mod M K
  have hlt : M % K < K := Nat.mod_lt M hK
  by_cases hcase : M % K + 1 = K
  · have hM1 : M + 1 = K * (M / K + 1) := by
      rw [Nat.mul_add, Nat.mul_one]
      omega
    have hdiv : (M + 1) / K = M / K + 1 := by
      rw [hM1, Nat.mul_div_cancel_left _ hK]
    have hmod1 : (M + 1) % K = 0 := by
      rw [hM1, Nat.mul_mod_right]
    simp only [resCountF, hdiv, hmod1]
    split_ifs <;> omega
  · have h2 : M % K + 1 < K := by omega
    have hM1 : M + 1 = K * (M / K) + (M % K + 1) := by omega
    have hdiv : (M + 1) / K = M / K := by
      rw [hM1, Nat.mul_add_div hK, Nat.div_eq_of_lt h2]
      omega
    have hmod1 : (M + 1) % K = M % K + 1 := by
      rw [hM1, Nat.mul_add_mod]
      exact Nat.mod_eq_of_lt h2
    simp only [resCountF, hdiv, hmod1]
    split_ifs <;> omega

theorem countP_range_shift (K i c : Nat) (hK : 0 < K) (hi : i < K) :
    ∀ N, (List.range N).countP (fun j => decide ((c + j) % K = i)) + resCountF K i c
      = resCountF K i (c + N) := by
  intro N
  induction N with
  | zero => simp [resCountF]
  | succ N ih =>
    rw [List.range_succ, List.countP_append]
    have hone : (List.countP (fun j => decide ((c + j) % K = i)) [N])
        = if (c + N) % K = i then 1 else 0 := by
      simp [List.countP_cons]
    rw [hone, show c + (N + 1) = (c + N) + 1 from rfl,
      resCountF_succ K i hK hi (c + N)]
    omega

theorem selections_eq_map (K : Nat) (hK : 0 < K) :
    ∀ (N c : Nat), c < K →
      selections K c N = (List.range N).map (fun j => (c + j) % K) := by
  intro N
  induction N with
  | zero => intro c _; rfl
  | succ N ih =>
    intro c hc
    show c :: selections K ((c + 1) % K) N = _
    rw [ih ((c + 1) % K) (Nat.mod_lt _ hK), List.range_succ_eq_map,
      List.map_cons, List.map_map]
    have hhead : (c + 0) % K = c := by
      rw [Nat.add_zero, Nat.mod_eq_of_lt hc]
    rw [hhead]
    congr 1
    apply List.map_congr_left
    intro j _
    show ((c + 1) % K + j) % K = (c + Nat.succ j) % K
    rw [Nat.mod_add_mod]
    congr 1
    omega

/-- Claim C7 (confirmed): account selection is a strict round-robin: starting
from any in-range cursor `c` over a pool of `K` sessions, `N` consecutive
`post_reply` calls select the sessions `c, c+1, ..` cyclically (each call
advances the cursor by one modulo the pool size, whatever the outcome), and
every session index is selected either ⌊N/K⌋ or ⌊N/K⌋ + 1 = ⌈N/K⌉ times. -/
theorem C7_round_robin (K c N : Nat) (hK : 0 < K) (hc : c < K) :
    selections K c N = (List.range N).map (fun j => (c + j) % K)
    ∧ (∀ first oracle d, (post_reply K c first oracle d).2 = (c + 1) % K)
    ∧ (∀ i, i < K →
        (selections K c N).count i = N / K
        ∨ (selections K c N).count i = N / K + 1) := by
  have hmap := selections_eq_map K hK N c hc
  refine ⟨hmap, fun first oracle d => by cases first <;> rfl, fun i hi => ?_⟩
  rw [hmap, List.count_eq_countP, List.countP_map]
  have hbridge : List.countP ((fun x => x == i) ∘ fun j => (c + j) % K) (List.range N)
      = List.countP (fun j => decide ((c + j) % K = i)) (List.range N) := by
    refine congrArg (fun p => List.countP p (List.range N)) ?_
    funext j
    by_cases h : (c + j) % K = i <;> simp [h]
  rw [hbridge]
  have hshift := countP_range_shift K i c hK hi N
  have hc0 : resCountF K i c = if i < c then 1 else 0 := by
    simp [resCountF, Nat.div_eq_of_lt hc, Nat.mod_eq_of_lt hc]
  have hNdm := Nat.div_add_mod N K
  have hNr : N % K < K := Nat.mod_lt N hK
  rw [hc0] at hshift
  by_cases hcr : c + N % K < K
  · have heq : c + N = K * (N / K) + (c + N % K) := by omega
    have hdiv : (c + N) / K = N / K := by
      rw [heq, Nat.mul_add_div hK, Nat.div_eq_of_lt hcr]
      omega
    have hmod : (c + N) % K = c + N % K := by
      rw [heq, Nat.mul_add_mod]
      exact Nat.mod_eq_of_lt hcr
    simp only [resCountF, hdiv, hmod] at hshift
    split_ifs at hshift <;> omega
  · have hcr2 : c + N % K - K < K := by omega
    have heq : c + N = K * (N / K + 1) + (c + N % K - K) := by
      rw [Nat.mul_add, Nat.mul_one]
      omega
    have hdiv : (c + N) / K = N / K + 1 := by
      rw [heq, Nat.mul_add_div hK, Nat.div_eq_of_lt hcr2]
    have hmod : (c + N) % K = c + N % K - K := by
      rw [heq, Nat.mul_add_mod]
      exact Nat.mod_eq_of_lt hcr2
    simp only [resCountF, hdiv, hmod] at hshift
    split_ifs at hshift <;> omega

/-- Witness for C7: pool of 3 sessions, cursor at 1, 7 consecutive calls:
the selection order is cyclic from 1 and session 2 is selected ⌊7/3⌋ = 2
times (sessions 1 is selected 3 = ⌊7/3⌋ + 1 times). -/
theorem C7_witness :
    selections 3 1 7 = (List.range 7).map (fun j => (1 + j) % 3)
    ∧ ((selections 3 1 7).count 2 = 7 / 3 ∨ (selections 3 1 7).count 2 = 7 / 3 + 1)
    ∧ ((selections 3 1 7).count 1 = 7 / 3 ∨ (selections 3 1 7).count 1 = 7 / 3 + 1) := by
  have h := C7_round_robin 3 1 7 (by norm_num) (by norm_num)
  exact ⟨h.1, h.2.2 2 (by norm_num), h.2.2 1 (by norm_num)⟩

end RedditBot
